import Mathlib

/-!
Shallow embedding of the BetterUntis exploratory scripts
(`examine_timetable.py`, `test_python_webuntis.py`, `final_webuntis_test.py`),
faithful to the Python source.  Strings are modelled by Lean `String`
(a list of characters), the process environment by an association list,
console output by a list of structured events (one event per semantically
relevant `print`), and the outcome of each remote call by an explicit
result value, since the remote service is an external collaborator.
-/

namespace Untis

/-! ## Python string primitives -/

/-- Characters removed by Python `str.strip()` (whitespace model). -/
def stripChars (l : List Char) : List Char :=
  ((l.dropWhile Char.isWhitespace).reverse.dropWhile Char.isWhitespace).reverse

/-- Python `s.strip()`. -/
def pyStrip (s : String) : String := ⟨stripChars s.data⟩

/-- One left-to-right pass of Python `s.replace(old, new)` over the character
list; `fuel` only bounds the recursion and is called with the list length,
which every step strictly decreases by at least one character. -/
def replaceAux (pat repl : List Char) : Nat → List Char → List Char
  | 0, s => s
  | _ + 1, [] => []
  | fuel + 1, c :: rest =>
    if pat.isPrefixOf (c :: rest) then
      repl ++ replaceAux pat repl fuel (List.drop (pat.length - 1) rest)
    else
      c :: replaceAux pat repl fuel rest

/-- Python `s.replace(old, new)` for a nonempty `old`: replace every
leftmost non-overlapping occurrence, scanning left to right and continuing
after each replacement. -/
def pyReplace (s pat repl : String) : String :=
  if pat.data.isEmpty then s else ⟨replaceAux pat.data repl.data s.data.length s.data⟩

/-- Python `s.startswith(pre)`. -/
def pyStartsWith (s pre : String) : Bool := pre.data.isPrefixOf s.data

/-- Python `c in s` for a single character. -/
def pyContainsChar (s : String) (c : Char) : Bool := s.data.contains c

/-- Occurrence of `pat` as a contiguous sublist. -/
def containsSubAux (pat : List Char) : List Char → Bool
  | [] => pat.isEmpty
  | c :: rest => pat.isPrefixOf (c :: rest) || containsSubAux pat rest

/-- Python `sub in s` (substring containment). -/
def containsSub (s sub : String) : Bool := containsSubAux sub.data s.data

/-- Python `s.lower()` (character-wise model). -/
def pyLower (s : String) : String := ⟨s.data.map Char.toLower⟩

/-! ## The process environment (`os.environ`) -/

/-- The environment is a finite map, modelled as an association list. -/
abbrev Env := List (String × String)

/-- Python `os.environ.get(k)`. -/
def getEnv (env : Env) (k : String) : Option String :=
  (env.find? (fun p => p.1 == k)).map (fun p => p.2)

/-- Python `os.environ.setdefault(k, v)`: set the key only when absent. -/
def setdefault (env : Env) (k v : String) : Env :=
  if (getEnv env k).isSome then env else env ++ [(k, v)]

/-! ## `load_env` (identical in all four scripts) -/

/-- Parse one line of the `.env` file exactly as the loop body in
`load_env` does: strip, skip blanks, skip lines starting with a hash mark,
skip lines without an equals sign, otherwise split at the first equals
sign and strip both parts. -/
def parseLine? (rawLine : String) : Option (String × String) :=
  let line := pyStrip rawLine
  if line = "" then none
  else if pyStartsWith line "#" then none
  else if !(pyContainsChar line '=') then none
  else some (pyStrip ⟨line.data.takeWhile (fun c => c ≠ '=')⟩,
             pyStrip ⟨(line.data.dropWhile (fun c => c ≠ '=')).drop 1⟩)

/-- Effect of one line on the environment (`os.environ.setdefault`). -/
def applyLine (env : Env) (rawLine : String) : Env :=
  match parseLine? rawLine with
  | none => env
  | some kv => setdefault env kv.1 kv.2

/-- Processing the whole file, line by line. -/
def loadFile (env : Env) (lines : List String) : Env := lines.foldl applyLine env

/-- A directory: it either holds a `.env` file (its lines) or not. -/
structure Dir where
  envFile : Option (List String)
deriving DecidableEq

/-- `load_env`: `search_paths = [Path.cwd(), script_dir]`; for each start,
walk `[start] + parents`; the first candidate owning a `.env` file is
loaded and the function returns.  `cwdChain` and `scriptChain` are the two
already-expanded candidate chains. -/
def load_env (env : Env) (cwdChain scriptChain : List Dir) : Env :=
  match (cwdChain ++ scriptChain).find? (fun d => d.envFile.isSome) with
  | some d => loadFile env (d.envFile.getD [])
  | none => env

/-! ## `require_env` and credential normalization -/

/-- The `RuntimeError` message of `require_env` (quotation marks around the
key elided). -/
def missingMsg (key : String) : String :=
  "Missing required environment variable " ++ key ++
    ". Create a .env file based on .env.example before running this script."

/-- `require_env`: read the key with default empty, strip, and fail on an
empty result. -/
def require_env (env : Env) (key : String) : Except String String :=
  let value := pyStrip ((getEnv env key).getD "")
  if value = "" then .error (missingMsg key) else .ok value

/-- Server normalization: `.replace("https://", "").replace("http://", "")`. -/
def normalizeServer (s : String) : String :=
  pyReplace (pyReplace s "https://" "") "http://" ""

/-- School normalization: `.replace(" ", "+")`. -/
def normalizeSchool (s : String) : String := pyReplace s " " "+"

structure Credentials where
  server : String
  school : String
  username : String
  password : String
deriving DecidableEq

/-- The module-level credential block of every script: four `require_env`
calls in source order, each a fatal `RuntimeError` when it fails, with the
server and school values normalized. -/
def mkCredentials (env : Env) : Except String Credentials :=
  match require_env env "UNTIS_BASE_SERVER" with
  | .error e => .error e
  | .ok serverRaw =>
  match require_env env "UNTIS_SCHOOL" with
  | .error e => .error e
  | .ok schoolRaw =>
  match require_env env "UNTIS_USERNAME" with
  | .error e => .error e
  | .ok username =>
  match require_env env "UNTIS_PASSWORD" with
  | .error e => .error e
  | .ok password =>
    .ok ⟨normalizeServer serverRaw, normalizeSchool schoolRaw, username, password⟩

/-! ## Records and attribute access

A record returned by a probe is an opaque object; the scripts only look at
it through `dir`, `getattr` and `hasattr`.  A record is modelled by its
attribute table: each attribute either yields a value (modelled as the
string the script would print) or raises on access. -/

inductive FieldAccess where
  | ok (value : String)
  | raises
deriving DecidableEq

structure Record where
  fields : List (String × FieldAccess)
deriving DecidableEq

/-- Python `dir(record)`: the attribute names. -/
def dirAttrs (r : Record) : List String := r.fields.map (fun f => f.1)

/-- Python `getattr(record, a)`: `none` models `AttributeError` for a name
not in the table; `some .raises` an attribute whose access raises. -/
def getattr (r : Record) (a : String) : Option FieldAccess :=
  (r.fields.find? (fun f => f.1 == a)).map (fun f => f.2)

/-- Python `hasattr(record, a)`: true exactly when `getattr` succeeds. -/
def hasattrB (r : Record) (a : String) : Bool :=
  match getattr r a with
  | some (.ok _) => true
  | _ => false

/-! ## Console events

One constructor per semantically relevant `print` of the scripts; purely
decorative header lines are not modelled. -/

inductive Event where
  | loggedIn
  | probeCount (probe : String) (n : Nat)
  | probeError (probe : String) (msg : String)
  | probeUnavailable (probe : String)
  | fieldDump (periodIdx : Nat) (attr : String) (value : String)
  | fieldInaccessible (periodIdx : Nat) (attr : String)
  | indicatorFound (periodIdx : Nat) (attr : String) (value : String)
  | indicatorSummary (statusCount : Nat) (codeCount : Nat)
  | sampleShown (probe : String) (r : Record)
  | methodsListed (names : List String)
  | connectionFailed (msg : String)
  | sessionReleased
  | fatalConfigError (msg : String)
deriving DecidableEq

/-- Enumeration starting at a given index (Python `enumerate`). -/
def enumFromIdx {α : Type} (i : Nat) : List α → List (Nat × α)
  | [] => []
  | x :: xs => (i, x) :: enumFromIdx (i + 1) xs

/-! ## The `examine_timetable.py` session body -/

/-- One attribute of the period dump loop: `for attr in dir(period): if not
attr.startswith(underscore): try print getattr ... except: print cannot
access`.  The bare `except` catches every access failure. -/
def dumpAttrEvent (i : Nat) (r : Record) (attr : String) : Option Event :=
  if pyStartsWith attr "_" then none
  else match getattr r attr with
    | some (.ok v) => some (.fieldDump i attr v)
    | _ => some (.fieldInaccessible i attr)

/-- Field-by-field dump of one period. -/
def dumpPeriod (i : Nat) (r : Record) : List Event :=
  (dirAttrs r).filterMap (dumpAttrEvent i r)

/-- `for i, period in enumerate(my_tt[:3])`: dump at most the first three
periods. -/
def dumpEvents (tt : List Record) : List Event :=
  ((enumFromIdx 0 (tt.take 3)).map (fun p => dumpPeriod p.1 p.2)).flatten

/-- Python truthiness test `if value and str(value).strip():` for a value
modelled as the string it prints as. -/
def truthy (v : String) : Bool := v != "" && pyStrip v != ""

def indicatorAttrs : List String :=
  ["status", "lstext", "activityType", "code", "cancelled", "substituted"]

/-- The indicator pairs one period contributes to the search loop. -/
def foundIndicators (r : Record) : List (String × String) :=
  indicatorAttrs.filterMap (fun attr =>
    if hasattrB r attr then
      match getattr r attr with
      | some (.ok v) => if truthy v then some (attr, v) else none
      | _ => none
    else none)

def isStatusAttr (a : String) : Bool := containsSub (pyLower a) "status"

def isCodeAttr (a : String) : Bool := containsSub (pyLower a) "code"

/-- The `status_found` accumulator of the search loop. -/
def statusFound (tt : List Record) : List (Nat × String) :=
  ((enumFromIdx 0 tt).map (fun p =>
    (foundIndicators p.2).filterMap (fun q =>
      if isStatusAttr q.1 then some (p.1, q.2) else none))).flatten

/-- The `code_found` accumulator (the `elif` branch of the classifier). -/
def codeFound (tt : List Record) : List (Nat × String) :=
  ((enumFromIdx 0 tt).map (fun p =>
    (foundIndicators p.2).filterMap (fun q =>
      if !isStatusAttr q.1 && isCodeAttr q.1 then some (p.1, q.2) else none))).flatten

/-- The per-period prints of the search loop. -/
def indicatorEvents (tt : List Record) : List Event :=
  ((enumFromIdx 0 tt).map (fun p =>
    (foundIndicators p.2).map (fun q => Event.indicatorFound p.1 q.1 q.2))).flatten

/-- The whole `my_timetable` try block: on failure print the error; on
success print the count and, when the list is nonempty, the dump of the
first three periods, the indicator search and the summary. -/
def myTimetableEvents (res : Except String (List Record)) : List Event :=
  match res with
  | .error e => [.probeError "my_timetable" e]
  | .ok tt =>
    .probeCount "my_timetable" tt.length ::
      (if tt.isEmpty then []
       else dumpEvents tt ++ indicatorEvents tt ++
         [.indicatorSummary (statusFound tt).length (codeFound tt).length])

/-- The `timetable_extended` try block. -/
def timetableExtendedEvents (res : Except String (List Record)) : List Event :=
  match res with
  | .error e => [.probeError "timetable_extended" e]
  | .ok tt => [.probeCount "timetable_extended" tt.length]

/-- The `substitutions` try block: count, and a sample when nonempty. -/
def substitutionsEvents (res : Except String (List Record)) : List Event :=
  match res with
  | .error e => [.probeError "substitutions" e]
  | .ok subs =>
    .probeCount "substitutions" subs.length ::
      (match subs with
       | [] => []
       | r :: _ => [.sampleShown "substitutions" r])

/-- A run's world: the outcome of the login and of each remote call,
fixed in advance since the remote service is external. -/
structure World where
  login : Except String Unit
  myTimetable : Except String (List Record)
  timetableExtended : Except String (List Record)
  substitutions : Except String (List Record)

/-- Body of the `with` statement in `examine_timetable.py`.  Every remote
call in the body sits inside its own `try`, so the body itself never
raises. -/
def sessionBody (w : World) : List Event :=
  myTimetableEvents w.myTimetable ++
    timetableExtendedEvents w.timetableExtended ++
      substitutionsEvents w.substitutions

/-- The `try: with Session(...).login() as s: ... except:` block.  Python
semantics of `with EXPR as s`: when evaluating `EXPR` (the `login()` call)
raises, the context is never entered and `exit` (the session release) is
never run; the outer `except` prints the connection failure.  When login
succeeds, the body runs and the release fires exactly once on exit. -/
def run (w : World) : List Event :=
  match w.login with
  | .error e => [.connectionFailed e]
  | .ok _ => .loggedIn :: sessionBody w ++ [.sessionReleased]

/-- The whole script after `load_env`: the credential block runs first and
an uncaught `RuntimeError` ends the process before any network call. -/
def runScript (env : Env) (w : World) : List Event :=
  match mkCredentials env with
  | .error msg => [.fatalConfigError msg]
  | .ok _ => run w

/-- The whole script including the override-file loading. -/
def mainScript (initEnv : Env) (cwdChain scriptChain : List Dir) (w : World) :
    List Event :=
  runScript (load_env initEnv cwdChain scriptChain) w

/-! ## The `test_python_webuntis.py` session body -/

/-- Outcome of a probe guarded by `except AttributeError` and a general
`except`: the call may succeed, be missing on the session object
(`AttributeError`, printed as a warning), or fail with any other error. -/
inductive MethodResult where
  | ok (records : List Record)
  | notAvailable
  | failed (msg : String)
deriving DecidableEq

/-- A plain `try: xs = s.op(); print count except Exception: print error`
probe block. -/
def probeEvents (name : String) (res : Except String (List Record)) : List Event :=
  match res with
  | .error e => [.probeError name e]
  | .ok l => [.probeCount name l.length]

/-- An absence or exam probe: count plus sample on success, a warning when
the method is not available, an error message otherwise. -/
def methodEvents (name : String) (res : MethodResult) : List Event :=
  match res with
  | .notAvailable => [.probeUnavailable name]
  | .failed e => [.probeError name e]
  | .ok l =>
    .probeCount name l.length ::
      (match l with
       | [] => []
       | r :: _ => [.sampleShown name r])

/-- Stable insertion into an ascending list (for Python `sorted`). -/
def insertSorted (x : String) : List String → List String
  | [] => [x]
  | y :: ys => if decide (x ≤ y) then x :: y :: ys else y :: insertSorted x ys

/-- Python `sorted` on strings. -/
def sortStrings : List String → List String
  | [] => []
  | x :: xs => insertSorted x (sortStrings xs)

/-- World of `test_python_webuntis.py`: login outcome, the outcome of each
probe in source order, and the attribute names of the session object. -/
structure World2 where
  login : Except String Unit
  klassen : Except String (List Record)
  subjects : Except String (List Record)
  teachers : Except String (List Record)
  rooms : Except String (List Record)
  timetable : Except String (List Record)
  own_absences : MethodResult
  absences : MethodResult
  exams : MethodResult
  own_exams : MethodResult
  sessionAttrs : List String

/-- Body of the `with` statement of `test_python_webuntis.py`: the five
plain probes, the two absence methods, the two exam methods (the outer
`try` around each method loop can never fire since every iteration handles
its own exceptions), then the sorted listing of the session's public
methods. -/
def sessionBody2 (w : World2) : List Event :=
  probeEvents "klassen" w.klassen ++
    probeEvents "subjects" w.subjects ++
      probeEvents "teachers" w.teachers ++
        probeEvents "rooms" w.rooms ++
          probeEvents "timetable" w.timetable ++
            methodEvents "own_absences" w.own_absences ++
              methodEvents "absences" w.absences ++
                methodEvents "exams" w.exams ++
                  methodEvents "own_exams" w.own_exams ++
                    [.methodsListed
                      (sortStrings (w.sessionAttrs.filter
                        (fun m => !(pyStartsWith m "_"))))]

/-- The `try: with Session(...).login() as s: ... except:` block of
`test_python_webuntis.py`, with the same `with`-statement semantics as
`run`. -/
def run2 (w : World2) : List Event :=
  match w.login with
  | .error e => [.connectionFailed e]
  | .ok _ => .loggedIn :: sessionBody2 w ++ [.sessionReleased]

/-! ## The `final_webuntis_test.py` fixed-attribute dump -/

/-- The attribute list of the period-structure dump. -/
def fixedAttrs : List String :=
  ["id", "date", "starttime", "endtime", "klassen", "teachers", "subjects",
   "rooms", "lstext", "statflags", "activityType", "code"]

/-- The dump loop `for attr in attrs: if hasattr(period, attr): print
getattr(period, attr)`: an attribute that is missing or whose access
raises makes `hasattr` false and is skipped without any output. -/
def dumpFixedAttrs (r : Record) : List Event :=
  fixedAttrs.filterMap (fun attr =>
    if hasattrB r attr then
      match getattr r attr with
      | some (.ok v) => some (.fieldDump 0 attr v)
      | _ => none
    else none)

/-! ## Probe tables and event classifiers -/

/-- The fixed ordered probe list of `examine_timetable.py`. -/
def probeNames1 : List String := ["my_timetable", "timetable_extended", "substitutions"]

/-- Result of a named probe of `examine_timetable.py`. -/
def World.resultOf (w : World) (name : String) : Option (Except String (List Record)) :=
  if name = "my_timetable" then some w.myTimetable
  else if name = "timetable_extended" then some w.timetableExtended
  else if name = "substitutions" then some w.substitutions
  else none

/-- The fixed ordered probe list of `test_python_webuntis.py`. -/
def probeNames2 : List String :=
  ["klassen", "subjects", "teachers", "rooms", "timetable",
   "own_absences", "absences", "exams", "own_exams"]

def exceptToMR : Except String (List Record) → MethodResult
  | .ok l => .ok l
  | .error e => .failed e

/-- Result of a named probe of `test_python_webuntis.py`. -/
def World2.resultOf (w : World2) (name : String) : Option MethodResult :=
  if name = "klassen" then some (exceptToMR w.klassen)
  else if name = "subjects" then some (exceptToMR w.subjects)
  else if name = "teachers" then some (exceptToMR w.teachers)
  else if name = "rooms" then some (exceptToMR w.rooms)
  else if name = "timetable" then some (exceptToMR w.timetable)
  else if name = "own_absences" then some w.own_absences
  else if name = "absences" then some w.absences
  else if name = "exams" then some w.exams
  else if name = "own_exams" then some w.own_exams
  else none

/-- The probe a report line concerns, when it is a report line. -/
def eventProbe : Event → Option String
  | .probeCount p _ => some p
  | .probeError p _ => some p
  | .probeUnavailable p => some p
  | _ => none

/-- A report line announcing a probe failure (error or unavailable). -/
def isErrorReport : Event → Bool
  | .probeError _ _ => true
  | .probeUnavailable _ => true
  | _ => false

/-- The period index of a field-dump line, when it is one. -/
def fieldIdx : Event → Option Nat
  | .fieldDump i _ _ => some i
  | .fieldInaccessible i _ => some i
  | _ => none

def isReleased : Event → Bool
  | .sessionReleased => true
  | _ => false

/-- How many times the session release fired in a trace. -/
def countReleased (tr : List Event) : Nat := (tr.filter isReleased).length

def mrFails : MethodResult → Bool
  | .ok _ => false
  | .notAvailable => true
  | .failed _ => true

def loginOk : Except String Unit → Bool
  | .ok _ => true
  | .error _ => false

/-! ## Definitions following the words of the specification

These two definitions are written from the wording of the claims, for
comparison with the source-derived definitions above. -/

/-- Discovery procedure as claim C5 words it: the override file is found
by searching only the current directory and its ancestors. -/
def loadEnvSpecDiscovery (env : Env) (cwdChain : List Dir) : Env :=
  match cwdChain.find? (fun d => d.envFile.isSome) with
  | some d => loadFile env (d.envFile.getD [])
  | none => env

/-- School normalization as claim C8 words it: every space character
replaced by a plus sign. -/
def schoolSpecMap (s : String) : String :=
  ⟨s.data.map (fun c => if c = ' ' then '+' else c)⟩

/-! ## Further analysis definitions -/

/-- The attribute a field-dump line concerns, when it is one. -/
def fieldAttr : Event → Option String
  | .fieldDump _ a _ => some a
  | .fieldInaccessible _ a => some a
  | _ => none

def exceptFails : Except String (List Record) → Bool
  | .ok _ => false
  | .error _ => true

/-- The four required credential keys, in the order the scripts read them. -/
def requiredKeys : List String :=
  ["UNTIS_BASE_SERVER", "UNTIS_SCHOOL", "UNTIS_USERNAME", "UNTIS_PASSWORD"]

/-- A key counts as provided when its value is set and not blank, which is
exactly when `require_env` succeeds on it. -/
abbrev envProvided (env : Env) (k : String) : Prop :=
  pyStrip ((getEnv env k).getD "") ≠ ""

/-- The lines of the first `.env` file on a candidate chain (empty when no
candidate owns one). -/
def firstEnvFile (chain : List Dir) : List String :=
  match chain.find? (fun d => d.envFile.isSome) with
  | some d => d.envFile.getD []
  | none => []

/-- The value the first matching `KEY=VALUE` line of a file assigns to a
key. -/
def firstValueFor (lines : List String) (k : String) : Option String :=
  ((lines.filterMap parseLine?).find? (fun p => p.1 == k)).map (fun p => p.2)

end Untis

deriving instance DecidableEq for Except

namespace Untis

/-! ## Helper lemmas about the environment -/

theorem getEnv_append (e₁ e₂ : Env) (k : String) :
    getEnv (e₁ ++ e₂) k = (getEnv e₁ k).or (getEnv e₂ k) := by
  unfold getEnv
  rw [List.find?_append]
  cases e₁.find? (fun p => p.1 == k) <;> rfl

theorem getEnv_single (k v : String) : getEnv [(k, v)] k = some v := by
  simp [getEnv, List.find?]

theorem getEnv_single_ne (k' k v : String) (h : k' ≠ k) : getEnv [(k', v)] k = none := by
  have hb : (k' == k) = false := by simp [h]
  simp [getEnv, List.find?, hb]

theorem getEnv_setdefault_self (env : Env) (k v : String) :
    getEnv (setdefault env k v) k = (getEnv env k).or (some v) := by
  unfold setdefault
  cases h : getEnv env k with
  | some w => simp [h]
  | none => simp [h, getEnv_append, getEnv_single]

theorem getEnv_setdefault_ne (env : Env) (k' k v : String) (h : k' ≠ k) :
    getEnv (setdefault env k' v) k = getEnv env k := by
  unfold setdefault
  cases h' : getEnv env k' with
  | some w => simp
  | none => simp [getEnv_append, getEnv_single_ne _ _ _ h, Option.or_none]

/-! ## Helper lemmas about `require_env` -/

theorem require_env_of_absent (env : Env) (k : String) (h : getEnv env k = none) :
    require_env env k = .error (missingMsg k) := by
  simp [require_env, h, pyStrip, stripChars]

theorem require_env_of_blank (env : Env) (k v : String)
    (hv : getEnv env k = some v) (hb : pyStrip v = "") :
    require_env env k = .error (missingMsg k) := by
  simp [require_env, hv, hb]

theorem require_env_of_value (env : Env) (k v : String)
    (hv : getEnv env k = some v) (hb : pyStrip v ≠ "") :
    require_env env k = .ok (pyStrip v) := by
  simp [require_env, hv, hb]

theorem require_env_of_provided (env : Env) (k : String) (h : envProvided env k) :
    require_env env k = .ok (pyStrip ((getEnv env k).getD "")) := by
  simp [require_env, envProvided] at h ⊢
  simp [h]

/-- A string built around a key contains that key as a substring. -/
theorem containsSubAux_middle (pat pre post : List Char) :
    containsSubAux pat (pre ++ (pat ++ post)) = true := by
  induction pre with
  | nil =>
    cases pat with
    | nil => cases post <;> simp [containsSubAux, List.isPrefixOf]
    | cons c cs =>
      simp only [List.nil_append, containsSubAux, List.cons_append]
      have h' : (c :: cs).isPrefixOf (c :: cs ++ post) = true := by
        rw [List.isPrefixOf_iff_prefix]
        exact List.prefix_append _ _
      simp only [List.cons_append] at h'
      simp [h']
  | cons c cs ih =>
    simp only [List.cons_append, containsSubAux, List.append_eq, ih, Bool.or_true]

theorem missingMsg_names_key (k : String) : containsSub (missingMsg k) k = true := by
  have h : (missingMsg k).data
      = ("Missing required environment variable ").data ++ (k.data ++
        (". Create a .env file based on .env.example before running this script.").data) := by
    simp [missingMsg, String.data_append]
  unfold containsSub
  rw [h]
  exact containsSubAux_middle _ _ _

/-- C9: `require_env` treats a value that is set but blank (empty or
whitespace-only after stripping) exactly like an absent value, raising the
same fatal error, whose message names the key; on success it returns the
value with surrounding whitespace stripped. -/
theorem C9_require_env_blank (env : Env) (k : String) :
    (getEnv env k = none → require_env env k = .error (missingMsg k)) ∧
    (∀ v, getEnv env k = some v → pyStrip v = "" →
      require_env env k = .error (missingMsg k)) ∧
    (∀ v, getEnv env k = some v → pyStrip v ≠ "" →
      require_env env k = .ok (pyStrip v)) ∧
    containsSub (missingMsg k) k = true :=
  ⟨require_env_of_absent env k,
   fun v hv hb => require_env_of_blank env k v hv hb,
   fun v hv hb => require_env_of_value env k v hv hb,
   missingMsg_names_key k⟩

theorem C9_require_env_blank_witness :
    require_env [("OTHER", "x")] "UNTIS_SCHOOL" = .error (missingMsg "UNTIS_SCHOOL") ∧
    require_env [("UNTIS_SCHOOL", "   ")] "UNTIS_SCHOOL" = .error (missingMsg "UNTIS_SCHOOL") ∧
    require_env [("UNTIS_SCHOOL", "  abc ")] "UNTIS_SCHOOL" = .ok "abc" := by
  refine ⟨(C9_require_env_blank _ _).1 (by decide),
    (C9_require_env_blank _ _).2.1 "   " (by decide) (by decide), ?_⟩
  have h := (C9_require_env_blank [("UNTIS_SCHOOL", "  abc ")] "UNTIS_SCHOOL").2.2.1
    "  abc " (by decide) (by decide)
  exact (show pyStrip "  abc " = "abc" from rfl) ▸ h

/-- C2: when one required credential key is absent from the environment
and the other required keys are provided, the credential block fails with
the fatal configuration error naming that key, and the run produces no
event besides the fatal error: in particular no login and no probe is
ever attempted. -/
theorem C2_missing_key_fatal_before_network (env : Env) (k : String)
    (hk : k ∈ requiredKeys) (habs : getEnv env k = none)
    (hrest : ∀ k' ∈ requiredKeys, k' ≠ k → envProvided env k') :
    mkCredentials env = .error (missingMsg k) ∧
    containsSub (missingMsg k) k = true ∧
    ∀ w : World, runScript env w = [.fatalConfigError (missingMsg k)] := by
  have hmk : mkCredentials env = .error (missingMsg k) := by
    simp only [requiredKeys, List.mem_cons, List.not_mem_nil, or_false] at hk
    rcases hk with rfl | rfl | rfl | rfl
    · simp [mkCredentials, require_env_of_absent env _ habs]
    · have hs := require_env_of_provided env "UNTIS_BASE_SERVER"
        (hrest _ (by simp [requiredKeys]) (by decide))
      simp [mkCredentials, hs, require_env_of_absent env _ habs]
    · have hs := require_env_of_provided env "UNTIS_BASE_SERVER"
        (hrest _ (by simp [requiredKeys]) (by decide))
      have hc := require_env_of_provided env "UNTIS_SCHOOL"
        (hrest _ (by simp [requiredKeys]) (by decide))
      simp [mkCredentials, hs, hc, require_env_of_absent env _ habs]
    · have hs := require_env_of_provided env "UNTIS_BASE_SERVER"
        (hrest _ (by simp [requiredKeys]) (by decide))
      have hc := require_env_of_provided env "UNTIS_SCHOOL"
        (hrest _ (by simp [requiredKeys]) (by decide))
      have hu := require_env_of_provided env "UNTIS_USERNAME"
        (hrest _ (by simp [requiredKeys]) (by decide))
      simp [mkCredentials, hs, hc, hu, require_env_of_absent env _ habs]
  exact ⟨hmk, missingMsg_names_key k, fun w => by simp [runScript, hmk]⟩

theorem C2_missing_key_fatal_before_network_witness :
    "UNTIS_SCHOOL" ∈ requiredKeys ∧
    getEnv [("UNTIS_BASE_SERVER", "srv"), ("UNTIS_USERNAME", "u"),
      ("UNTIS_PASSWORD", "p")] "UNTIS_SCHOOL" = none ∧
    runScript [("UNTIS_BASE_SERVER", "srv"), ("UNTIS_USERNAME", "u"),
        ("UNTIS_PASSWORD", "p")] ⟨.ok (), .ok [], .ok [], .ok []⟩
      = [.fatalConfigError (missingMsg "UNTIS_SCHOOL")] :=
  ⟨by decide, by decide,
    (C2_missing_key_fatal_before_network _ "UNTIS_SCHOOL" (by decide) (by decide)
      (by decide)).2.2 ⟨.ok (), .ok [], .ok [], .ok []⟩⟩

/-! ## Helper lemmas about line splitting -/

theorem takeWhile_append_not (p : Char → Bool) (l₁ l₂ : List Char) (a : Char)
    (h₁ : ∀ x ∈ l₁, p x = true) (h₂ : p a = false) :
    (l₁ ++ a :: l₂).takeWhile p = l₁ := by
  induction l₁ with
  | nil => simp [List.takeWhile_cons, h₂]
  | cons c cs ih =>
    have hc : p c = true := h₁ c (by simp)
    simp [List.takeWhile_cons, hc, ih (fun x hx => h₁ x (by simp [hx]))]

theorem dropWhile_append_not (p : Char → Bool) (l₁ l₂ : List Char) (a : Char)
    (h₁ : ∀ x ∈ l₁, p x = true) (h₂ : p a = false) :
    (l₁ ++ a :: l₂).dropWhile p = a :: l₂ := by
  induction l₁ with
  | nil => simp [List.dropWhile_cons, h₂]
  | cons c cs ih =>
    have hc : p c = true := h₁ c (by simp)
    simp [List.dropWhile_cons, hc, ih (fun x hx => h₁ x (by simp [hx]))]

/-- C10: a non-blank, non-comment override-file line without an equals
sign is silently skipped (the environment is returned unchanged); in a
line with one, only the first equals sign separates key from value, so
later equals signs stay in the value, and both parts are stripped of
surrounding whitespace before being set. -/
theorem C10_line_parsing (env : Env) :
    (∀ line : String, pyStrip line ≠ "" → pyStartsWith (pyStrip line) "#" = false →
      pyContainsChar (pyStrip line) '=' = false → applyLine env line = env) ∧
    (∀ k v : String, pyContainsChar k '=' = false →
      pyStrip (k ++ "=" ++ v) = k ++ "=" ++ v →
      pyStartsWith (k ++ "=" ++ v) "#" = false →
      applyLine env (k ++ "=" ++ v) = setdefault env (pyStrip k) (pyStrip v)) := by
  constructor
  · intro line h1 h2 h3
    simp [applyLine, parseLine?, h1, h2, h3]
  · intro k v hk hstrip hhash
    have hdata : (k ++ "=" ++ v).data = k.data ++ '=' :: v.data := by
      simp [String.data_append]
    have hne : ¬ (k ++ "=" ++ v) = "" := by
      intro h
      have h' := congrArg String.data h
      rw [hdata] at h'
      simp at h'
    have hnotin : '=' ∉ k.data := by
      intro hmem
      have hc : pyContainsChar k '=' = true := by
        unfold pyContainsChar
        simp [List.contains_iff_exists_mem_beq]
        exact hmem
      rw [hc] at hk
      exact Bool.noConfusion hk
    have hcontains : pyContainsChar (k ++ "=" ++ v) '=' = true := by
      unfold pyContainsChar
      rw [hdata]
      simp [List.contains_iff_exists_mem_beq]
    have hall : ∀ x ∈ k.data, (fun c => decide (c ≠ '=')) x = true := by
      intro x hx
      simp only [decide_eq_true_eq]
      intro hxe
      exact hnotin (hxe ▸ hx)
    have hstop : (fun c => decide (c ≠ '=')) '=' = false := by simp
    have htake : List.takeWhile (fun c => decide (c ≠ '=')) (k.data ++ '=' :: v.data) = k.data :=
      takeWhile_append_not _ _ _ _ hall hstop
    have hdrop : List.dropWhile (fun c => decide (c ≠ '=')) (k.data ++ '=' :: v.data) = '=' :: v.data :=
      dropWhile_append_not _ _ _ _ hall hstop
    simp only [applyLine, parseLine?, hstrip, hdata, hne, hhash, hcontains]
    rw [htake, hdrop]
    rfl

/-! ## Helper lemmas about single-character replacement -/

theorem replaceAux_single (c d : Char) (l : List Char) (fuel : Nat) (h : l.length ≤ fuel) :
    replaceAux [c] [d] fuel l = l.map (fun x => if x = c then d else x) := by
  induction l generalizing fuel with
  | nil => cases fuel <;> rfl
  | cons x xs ih =>
    cases fuel with
    | zero => simp at h
    | succ n =>
      have hlen : xs.length ≤ n := Nat.le_of_succ_le_succ h
      by_cases hx : x = c
      · subst hx
        have hpre : [x].isPrefixOf (x :: xs) = true := by simp [List.isPrefixOf]
        simp [replaceAux, hpre, ih n hlen]
      · have hpre : [c].isPrefixOf (x :: xs) = false := by
          simp [List.isPrefixOf]
          exact fun he => hx he.symm
        simp [replaceAux, hpre, ih n hlen, hx]

theorem normalizeSchool_eq_schoolSpecMap (s : String) : normalizeSchool s = schoolSpecMap s := by
  show pyReplace s " " "+" = schoolSpecMap s
  unfold pyReplace
  rw [if_neg (by decide : ¬ ((" ".data.isEmpty) = true))]
  exact congrArg String.mk (replaceAux_single ' ' '+' s.data s.data.length (Nat.le_refl _))

/-! ## Helper lemmas about the override-file loader -/

theorem firstValueFor_cons (line : String) (ls : List String) (k : String) :
    firstValueFor (line :: ls) k =
      match parseLine? line with
      | none => firstValueFor ls k
      | some kv => if kv.1 == k then some kv.2 else firstValueFor ls k := by
  unfold firstValueFor
  cases h : parseLine? line with
  | none => simp [List.filterMap_cons, h]
  | some kv =>
    cases hbeq : (kv.1 == k) with
    | true =>
      simp [List.filterMap_cons, h, List.find?_cons_of_pos _ hbeq, hbeq]
    | false =>
      simp [List.filterMap_cons, h, List.find?_cons_of_neg, hbeq]

theorem loadFile_getEnv (lines : List String) (env : Env) (k : String) :
    getEnv (loadFile env lines) k = (getEnv env k).or (firstValueFor lines k) := by
  induction lines generalizing env with
  | nil => simp [loadFile, firstValueFor, Option.or_none]
  | cons line ls ih =>
    have hl : loadFile env (line :: ls) = loadFile (applyLine env line) ls := rfl
    rw [hl, ih, firstValueFor_cons]
    unfold applyLine
    cases h : parseLine? line with
    | none => rfl
    | some kv =>
      obtain ⟨k1, v1⟩ := kv
      show (getEnv (setdefault env k1 v1) k).or (firstValueFor ls k)
        = (getEnv env k).or (if (k1 == k) = true then some v1 else firstValueFor ls k)
      cases hbeq : (k1 == k) with
      | true =>
        have hk : k1 = k := by simpa using hbeq
        subst hk
        rw [getEnv_setdefault_self, Option.or_assoc]
        simp
      | false =>
        have hk : k1 ≠ k := by simpa using hbeq
        rw [getEnv_setdefault_ne _ _ _ _ hk]
        simp

theorem load_env_eq_firstEnvFile (env : Env) (cwdChain scriptChain : List Dir) :
    load_env env cwdChain scriptChain = loadFile env (firstEnvFile (cwdChain ++ scriptChain)) := by
  unfold load_env firstEnvFile
  cases h : (cwdChain ++ scriptChain).find? (fun d => d.envFile.isSome) with
  | none => simp [h, loadFile]
  | some d => simp [h]

/-- C5 (amended): the loader reads exactly one file, the first `.env`
found on the concatenation of the current-directory chain and the
script-directory chain; per key, the first matching parsed line wins and
a variable already set in the environment is never overridden; blank
lines and lines starting with a hash mark are skipped. -/
theorem C5_loader_behavior (env : Env) (cwdChain scriptChain : List Dir) (k : String) :
    getEnv (load_env env cwdChain scriptChain) k
      = (getEnv env k).or (firstValueFor (firstEnvFile (cwdChain ++ scriptChain)) k) ∧
    (∀ v, getEnv env k = some v → getEnv (load_env env cwdChain scriptChain) k = some v) ∧
    (∀ line, pyStrip line = "" ∨ pyStartsWith (pyStrip line) "#" = true →
      applyLine env line = env) := by
  have hmain : getEnv (load_env env cwdChain scriptChain) k
      = (getEnv env k).or (firstValueFor (firstEnvFile (cwdChain ++ scriptChain)) k) := by
    rw [load_env_eq_firstEnvFile, loadFile_getEnv]
  refine ⟨hmain, ?_, ?_⟩
  · intro v hv
    rw [hmain, hv]
    rfl
  · intro line hline
    rcases hline with hb | hc
    · simp [applyLine, parseLine?, hb]
    · simp [applyLine, parseLine?, hc]

theorem C5_loader_behavior_witness :
    getEnv (load_env [("UNTIS_SCHOOL", "kept")]
        [⟨some ["UNTIS_SCHOOL=file", "OTHER=1"]⟩] []) "UNTIS_SCHOOL" = some "kept" ∧
    applyLine [("UNTIS_SCHOOL", "kept")] "# note" = [("UNTIS_SCHOOL", "kept")] :=
  ⟨(C5_loader_behavior [("UNTIS_SCHOOL", "kept")] [⟨some ["UNTIS_SCHOOL=file", "OTHER=1"]⟩]
      [] "UNTIS_SCHOOL").2.1 "kept" (by decide),
   (C5_loader_behavior [("UNTIS_SCHOOL", "kept")] [⟨some ["UNTIS_SCHOOL=file", "OTHER=1"]⟩]
      [] "UNTIS_SCHOOL").2.2 "# note" (Or.inr (by decide))⟩

/-- C5 (counterexample): a filesystem where the current directory and its
ancestors hold no override file, yet the loader still loads one, found on
the script-directory chain; discovery limited to the current directory
chain, as the claim words it, would load nothing. -/
theorem C5_discovery_uses_script_chain :
    (∀ d ∈ [(⟨none⟩ : Dir)], d.envFile = none) ∧
    loadEnvSpecDiscovery [] [⟨none⟩] = [] ∧
    load_env [] [⟨none⟩] [⟨some ["UNTIS_SCHOOL=x"]⟩] = [("UNTIS_SCHOOL", "x")] :=
  ⟨by decide, by decide, by decide⟩

/-- C8 (amended): with all four keys provided, the credentials passed to
the session are built from the stripped environment values: the server is
the stripped UNTIS_BASE_SERVER with the occurrences of the https prefix
and then of the http prefix removed by left-to-right replacement, the
school is the stripped UNTIS_SCHOOL with every space character replaced
by a plus sign, and the username and password are the stripped values,
otherwise unchanged. -/
theorem C8_normalization (env : Env)
    (hS : envProvided env "UNTIS_BASE_SERVER")
    (hC : envProvided env "UNTIS_SCHOOL")
    (hU : envProvided env "UNTIS_USERNAME")
    (hP : envProvided env "UNTIS_PASSWORD") :
    mkCredentials env = .ok
      ⟨normalizeServer (pyStrip ((getEnv env "UNTIS_BASE_SERVER").getD "")),
       schoolSpecMap (pyStrip ((getEnv env "UNTIS_SCHOOL").getD "")),
       pyStrip ((getEnv env "UNTIS_USERNAME").getD ""),
       pyStrip ((getEnv env "UNTIS_PASSWORD").getD "")⟩ := by
  have h1 := require_env_of_provided env "UNTIS_BASE_SERVER" hS
  have h2 := require_env_of_provided env "UNTIS_SCHOOL" hC
  have h3 := require_env_of_provided env "UNTIS_USERNAME" hU
  have h4 := require_env_of_provided env "UNTIS_PASSWORD" hP
  simp [mkCredentials, h1, h2, h3, h4, normalizeSchool_eq_schoolSpecMap]

theorem C8_normalization_witness :
    mkCredentials [("UNTIS_BASE_SERVER", " https://a b.c "), ("UNTIS_SCHOOL", " my school "),
      ("UNTIS_USERNAME", " user "), ("UNTIS_PASSWORD", " pass ")]
      = .ok ⟨"a b.c", "my+school", "user", "pass"⟩ :=
  (C8_normalization [("UNTIS_BASE_SERVER", " https://a b.c "), ("UNTIS_SCHOOL", " my school "),
      ("UNTIS_USERNAME", " user "), ("UNTIS_PASSWORD", " pass ")]
    (by decide) (by decide) (by decide) (by decide)).trans (by decide)

/-- C8 (counterexample): with a password value carrying surrounding
whitespace, the password handed to the session is the stripped value, not
the environment value unchanged; the same stripping applies to every
credential. -/
theorem C8_password_not_unchanged :
    getEnv [("UNTIS_BASE_SERVER", "srv"), ("UNTIS_SCHOOL", "sch"),
      ("UNTIS_USERNAME", "u"), ("UNTIS_PASSWORD", " secret ")] "UNTIS_PASSWORD"
      = some " secret " ∧
    mkCredentials [("UNTIS_BASE_SERVER", "srv"), ("UNTIS_SCHOOL", "sch"),
      ("UNTIS_USERNAME", "u"), ("UNTIS_PASSWORD", " secret ")]
      = .ok ⟨"srv", "sch", "u", "secret"⟩ ∧
    ("secret" : String) ≠ " secret " :=
  ⟨by decide, by decide, by decide⟩

/-! ## Helper lemmas about traces -/

theorem mem_enumFromIdx {α : Type} {p : Nat × α} :
    ∀ (i : Nat) (l : List α), p ∈ enumFromIdx i l → i ≤ p.1 ∧ p.1 < i + l.length := by
  intro i l
  induction l generalizing i with
  | nil => intro h; cases h
  | cons x xs ih =>
    intro h
    rcases List.mem_cons.mp h with rfl | h
    · simp
    · have hb := ih (i + 1) h
      simp only [List.length_cons]
      omega

theorem fieldIdx_of_mem_dumpPeriod {e : Event} {i : Nat} {r : Record}
    (h : e ∈ dumpPeriod i r) : fieldIdx e = some i := by
  rcases List.mem_filterMap.mp h with ⟨a, _, ha⟩
  unfold dumpAttrEvent at ha
  split at ha
  · exact Option.noConfusion ha
  · split at ha
    · cases ha
      rfl
    · cases ha
      rfl

theorem mem_dumpEvents {e : Event} {tt : List Record} (h : e ∈ dumpEvents tt) :
    ∃ i, fieldIdx e = some i ∧ i < 3 ∧ i < tt.length := by
  rcases List.mem_flatten.mp h with ⟨l', hl', he⟩
  rcases List.mem_map.mp hl' with ⟨p, hp, rfl⟩
  have hb := (mem_enumFromIdx 0 (tt.take 3) hp).2
  rw [Nat.zero_add, List.length_take] at hb
  exact ⟨p.1, fieldIdx_of_mem_dumpPeriod he,
    Nat.lt_of_lt_of_le hb (Nat.min_le_left _ _),
    Nat.lt_of_lt_of_le hb (Nat.min_le_right _ _)⟩

theorem mem_indicatorEvents {e : Event} {tt : List Record} (h : e ∈ indicatorEvents tt) :
    ∃ i a v, e = .indicatorFound i a v := by
  rcases List.mem_flatten.mp h with ⟨l', hl', he⟩
  rcases List.mem_map.mp hl' with ⟨p, _, rfl⟩
  rcases List.mem_map.mp he with ⟨q, _, rfl⟩
  exact ⟨p.1, q.1, q.2, rfl⟩

theorem mem_myTimetableEvents_ok {e : Event} {tt : List Record}
    (h : e ∈ myTimetableEvents (.ok tt)) :
    e = .probeCount "my_timetable" tt.length ∨
    (∃ i, fieldIdx e = some i ∧ i < 3 ∧ i < tt.length) ∨
    (∃ i a v, e = .indicatorFound i a v) ∨
    (∃ s c, e = .indicatorSummary s c) := by
  unfold myTimetableEvents at h
  rcases List.mem_cons.mp h with rfl | h
  · exact Or.inl rfl
  · split at h
    · cases h
    · rcases List.mem_append.mp h with h | h
      · rcases List.mem_append.mp h with h | h
        · exact Or.inr (Or.inl (mem_dumpEvents h))
        · exact Or.inr (Or.inr (Or.inl (mem_indicatorEvents h)))
      · rcases List.mem_singleton.mp h with rfl
        exact Or.inr (Or.inr (Or.inr ⟨_, _, rfl⟩))

theorem mem_timetableExtendedEvents {e : Event} {res : Except String (List Record)}
    (h : e ∈ timetableExtendedEvents res) :
    (∃ m, e = .probeError "timetable_extended" m) ∨
    (∃ n, e = .probeCount "timetable_extended" n) := by
  cases res with
  | error m =>
    rcases List.mem_singleton.mp h with rfl
    exact Or.inl ⟨m, rfl⟩
  | ok tt =>
    rcases List.mem_singleton.mp h with rfl
    exact Or.inr ⟨tt.length, rfl⟩

theorem mem_substitutionsEvents {e : Event} {res : Except String (List Record)}
    (h : e ∈ substitutionsEvents res) :
    (∃ m, e = .probeError "substitutions" m) ∨
    (∃ n, e = .probeCount "substitutions" n) ∨
    (∃ r, e = .sampleShown "substitutions" r) := by
  cases res with
  | error m =>
    rcases List.mem_singleton.mp h with rfl
    exact Or.inl ⟨m, rfl⟩
  | ok subs =>
    rcases List.mem_cons.mp h with rfl | h
    · exact Or.inr (Or.inl ⟨subs.length, rfl⟩)
    · cases subs with
      | nil => cases h
      | cons r rest =>
        rcases List.mem_singleton.mp h with rfl
        exact Or.inr (Or.inr ⟨r, rfl⟩)

theorem mem_probeEvents {e : Event} {name : String} {res : Except String (List Record)}
    (h : e ∈ probeEvents name res) :
    (∃ m, e = .probeError name m) ∨ (∃ n, e = .probeCount name n) := by
  cases res with
  | error m =>
    rcases List.mem_singleton.mp h with rfl
    exact Or.inl ⟨m, rfl⟩
  | ok l =>
    rcases List.mem_singleton.mp h with rfl
    exact Or.inr ⟨l.length, rfl⟩

theorem mem_methodEvents {e : Event} {name : String} {res : MethodResult}
    (h : e ∈ methodEvents name res) :
    (∃ m, e = .probeError name m) ∨ e = .probeUnavailable name ∨
    (∃ n, e = .probeCount name n) ∨ (∃ r, e = .sampleShown name r) := by
  cases res with
  | notAvailable =>
    rcases List.mem_singleton.mp h with rfl
    exact Or.inr (Or.inl rfl)
  | failed m =>
    rcases List.mem_singleton.mp h with rfl
    exact Or.inl ⟨m, rfl⟩
  | ok l =>
    rcases List.mem_cons.mp h with rfl | h
    · exact Or.inr (Or.inr (Or.inl ⟨l.length, rfl⟩))
    · cases l with
      | nil => cases h
      | cons r rest =>
        rcases List.mem_singleton.mp h with rfl
        exact Or.inr (Or.inr (Or.inr ⟨r, rfl⟩))

theorem not_released_of_fieldIdx {e : Event} {i : Nat} (h : fieldIdx e = some i) :
    isReleased e = false := by
  cases e <;> simp [fieldIdx, isReleased] at h ⊢

theorem not_released_sessionBody {e : Event} {w : World} (h : e ∈ sessionBody w) :
    isReleased e = false := by
  rcases List.mem_append.mp h with h | h
  · rcases List.mem_append.mp h with h | h
    · cases hres : w.myTimetable with
      | error m =>
        rw [hres] at h
        rcases List.mem_singleton.mp h with rfl
        rfl
      | ok tt =>
        rw [hres] at h
        rcases mem_myTimetableEvents_ok h with rfl | ⟨i, hi, _, _⟩ | ⟨i, a, v, rfl⟩ | ⟨s, c, rfl⟩
        · rfl
        · exact not_released_of_fieldIdx hi
        · rfl
        · rfl
    · rcases mem_timetableExtendedEvents h with ⟨m, rfl⟩ | ⟨n, rfl⟩ <;> rfl
  · rcases mem_substitutionsEvents h with ⟨m, rfl⟩ | ⟨n, rfl⟩ | ⟨r, rfl⟩ <;> rfl

theorem not_released_sessionBody2 {e : Event} {w : World2} (h : e ∈ sessionBody2 w) :
    isReleased e = false := by
  simp only [sessionBody2, List.mem_append, List.mem_singleton] at h
  rcases h with ((((((((h | h) | h) | h) | h) | h) | h) | h) | h) | rfl
  · rcases mem_probeEvents h with ⟨m, rfl⟩ | ⟨n, rfl⟩ <;> rfl
  · rcases mem_probeEvents h with ⟨m, rfl⟩ | ⟨n, rfl⟩ <;> rfl
  · rcases mem_probeEvents h with ⟨m, rfl⟩ | ⟨n, rfl⟩ <;> rfl
  · rcases mem_probeEvents h with ⟨m, rfl⟩ | ⟨n, rfl⟩ <;> rfl
  · rcases mem_probeEvents h with ⟨m, rfl⟩ | ⟨n, rfl⟩ <;> rfl
  · rcases mem_methodEvents h with ⟨m, rfl⟩ | rfl | ⟨n, rfl⟩ | ⟨r, rfl⟩ <;> rfl
  · rcases mem_methodEvents h with ⟨m, rfl⟩ | rfl | ⟨n, rfl⟩ | ⟨r, rfl⟩ <;> rfl
  · rcases mem_methodEvents h with ⟨m, rfl⟩ | rfl | ⟨n, rfl⟩ | ⟨r, rfl⟩ <;> rfl
  · rcases mem_methodEvents h with ⟨m, rfl⟩ | rfl | ⟨n, rfl⟩ | ⟨r, rfl⟩ <;> rfl
  · rfl

theorem mem_run_of_body {e : Event} {w : World} (hl : w.login = .ok ())
    (h : e ∈ sessionBody w) : e ∈ run w := by
  have hr : run w = .loggedIn :: sessionBody w ++ [.sessionReleased] := by
    unfold run
    rw [hl]
  rw [hr]
  exact List.mem_cons_of_mem _ (List.mem_append_left _ h)

theorem mem_run2_of_body {e : Event} {w : World2} (hl : w.login = .ok ())
    (h : e ∈ sessionBody2 w) : e ∈ run2 w := by
  have hr : run2 w = .loggedIn :: sessionBody2 w ++ [.sessionReleased] := by
    unfold run2
    rw [hl]
  rw [hr]
  exact List.mem_cons_of_mem _ (List.mem_append_left _ h)

/-- C1 (amended): the session's release routine fires exactly once when
the login succeeds, whatever the probes do; when the login call itself
raises, the `with` context is never entered and the release routine does
not fire at all. -/
theorem C1_release_count (w : World) (w2 : World2) :
    countReleased (run w) = (if loginOk w.login then 1 else 0) ∧
    countReleased (run2 w2) = (if loginOk w2.login then 1 else 0) := by
  constructor
  · cases hl : w.login with
    | error m => simp [run, hl, loginOk, countReleased, isReleased, List.filter]
    | ok u =>
      have hb : (sessionBody w).filter isReleased = [] :=
        List.filter_eq_nil_iff.mpr (fun e he => by simp [not_released_sessionBody he])
      have hr : run w = .loggedIn :: sessionBody w ++ [.sessionReleased] := by
        unfold run
        rw [hl]
      rw [hr]
      unfold countReleased
      rw [show (Event.loggedIn :: sessionBody w ++ [Event.sessionReleased])
          = [Event.loggedIn] ++ sessionBody w ++ [Event.sessionReleased] from rfl,
        List.filter_append, List.filter_append, hb]
      simp [loginOk]
      rfl
  · cases hl : w2.login with
    | error m => simp [run2, hl, loginOk, countReleased, isReleased, List.filter]
    | ok u =>
      have hb : (sessionBody2 w2).filter isReleased = [] :=
        List.filter_eq_nil_iff.mpr (fun e he => by simp [not_released_sessionBody2 he])
      have hr : run2 w2 = .loggedIn :: sessionBody2 w2 ++ [.sessionReleased] := by
        unfold run2
        rw [hl]
      rw [hr]
      unfold countReleased
      rw [show (Event.loggedIn :: sessionBody2 w2 ++ [Event.sessionReleased])
          = [Event.loggedIn] ++ sessionBody2 w2 ++ [Event.sessionReleased] from rfl,
        List.filter_append, List.filter_append, hb]
      simp [loginOk]
      rfl

/-- C1 (counterexample): on a run whose login raises, the release routine
fires zero times, not once as the claim states. -/
theorem C1_login_failure_skips_release :
    countReleased (run ⟨.error "connection refused", .ok [], .ok [], .ok []⟩) = 0 ∧
    countReleased (run ⟨.error "connection refused", .ok [], .ok [], .ok []⟩) ≠ 1 :=
  ⟨rfl, by decide⟩

/-- C7: when authentication or connection fails, both scripts report the
failure as the sole console message, never invoke any probe, and the run
terminates with that single event. -/
theorem C7_login_failure_fatal (w : World) (w2 : World2) (m m2 : String)
    (h : w.login = .error m) (h2 : w2.login = .error m2) :
    run w = [.connectionFailed m] ∧ run2 w2 = [.connectionFailed m2] ∧
    (∀ e ∈ run w, eventProbe e = none) ∧ (∀ e ∈ run2 w2, eventProbe e = none) := by
  have hr : run w = [.connectionFailed m] := by
    unfold run
    rw [h]
  have hr2 : run2 w2 = [.connectionFailed m2] := by
    unfold run2
    rw [h2]
  refine ⟨hr, hr2, ?_, ?_⟩
  · intro e he
    rw [hr] at he
    rcases List.mem_singleton.mp he with rfl
    rfl
  · intro e he
    rw [hr2] at he
    rcases List.mem_singleton.mp he with rfl
    rfl

theorem C7_login_failure_fatal_witness :
    run ⟨.error "bad credentials", .ok [], .ok [], .ok []⟩
      = [.connectionFailed "bad credentials"] ∧
    run2 ⟨.error "bad credentials", .ok [], .ok [], .ok [], .ok [], .ok [],
        .notAvailable, .notAvailable, .failed "no right", .ok [], []⟩
      = [.connectionFailed "bad credentials"] := by
  have h := C7_login_failure_fatal
    ⟨.error "bad credentials", .ok [], .ok [], .ok []⟩
    ⟨.error "bad credentials", .ok [], .ok [], .ok [], .ok [], .ok [],
      .notAvailable, .notAvailable, .failed "no right", .ok [], []⟩
    "bad credentials" "bad credentials" rfl rfl
  exact ⟨h.1, h.2.1⟩

/-! ## Report-existence lemmas: every probe block prints a report line -/

theorem myTimetableEvents_report (res : Except String (List Record)) :
    ∃ e ∈ myTimetableEvents res, eventProbe e = some "my_timetable" ∧
      (exceptFails res = true → isErrorReport e = true) := by
  cases res with
  | error m =>
    exact ⟨.probeError "my_timetable" m, by simp [myTimetableEvents], rfl, fun _ => rfl⟩
  | ok tt =>
    exact ⟨.probeCount "my_timetable" tt.length, by simp [myTimetableEvents], rfl,
      fun h => by simp [exceptFails] at h⟩

theorem timetableExtendedEvents_report (res : Except String (List Record)) :
    ∃ e ∈ timetableExtendedEvents res, eventProbe e = some "timetable_extended" ∧
      (exceptFails res = true → isErrorReport e = true) := by
  cases res with
  | error m =>
    exact ⟨.probeError "timetable_extended" m, by simp [timetableExtendedEvents], rfl,
      fun _ => rfl⟩
  | ok tt =>
    exact ⟨.probeCount "timetable_extended" tt.length, by simp [timetableExtendedEvents], rfl,
      fun h => by simp [exceptFails] at h⟩

theorem substitutionsEvents_report (res : Except String (List Record)) :
    ∃ e ∈ substitutionsEvents res, eventProbe e = some "substitutions" ∧
      (exceptFails res = true → isErrorReport e = true) := by
  cases res with
  | error m =>
    exact ⟨.probeError "substitutions" m, by simp [substitutionsEvents], rfl, fun _ => rfl⟩
  | ok subs =>
    exact ⟨.probeCount "substitutions" subs.length, by simp [substitutionsEvents], rfl,
      fun h => by simp [exceptFails] at h⟩

theorem probeEvents_report (name : String) (res : Except String (List Record)) :
    ∃ e ∈ probeEvents name res, eventProbe e = some name ∧
      (exceptFails res = true → isErrorReport e = true) := by
  cases res with
  | error m => exact ⟨.probeError name m, by simp [probeEvents], rfl, fun _ => rfl⟩
  | ok l =>
    exact ⟨.probeCount name l.length, by simp [probeEvents], rfl,
      fun h => by simp [exceptFails] at h⟩

theorem methodEvents_report (name : String) (res : MethodResult) :
    ∃ e ∈ methodEvents name res, eventProbe e = some name ∧
      (mrFails res = true → isErrorReport e = true) := by
  cases res with
  | notAvailable => exact ⟨.probeUnavailable name, by simp [methodEvents], rfl, fun _ => rfl⟩
  | failed m => exact ⟨.probeError name m, by simp [methodEvents], rfl, fun _ => rfl⟩
  | ok l =>
    refine ⟨.probeCount name l.length, ?_, rfl, fun h => by simp [mrFails] at h⟩
    cases l <;> simp [methodEvents]

theorem mem_sessionBody_my {e : Event} {w : World} (h : e ∈ myTimetableEvents w.myTimetable) :
    e ∈ sessionBody w :=
  List.mem_append_left _ (List.mem_append_left _ h)

theorem mem_sessionBody_ext {e : Event} {w : World}
    (h : e ∈ timetableExtendedEvents w.timetableExtended) : e ∈ sessionBody w :=
  List.mem_append_left _ (List.mem_append_right _ h)

theorem mem_sessionBody_subs {e : Event} {w : World}
    (h : e ∈ substitutionsEvents w.substitutions) : e ∈ sessionBody w :=
  List.mem_append_right _ h

theorem mem_sessionBody2_of (w : World2) (e : Event)
    (h : e ∈ probeEvents "klassen" w.klassen ∨
      e ∈ probeEvents "subjects" w.subjects ∨
      e ∈ probeEvents "teachers" w.teachers ∨
      e ∈ probeEvents "rooms" w.rooms ∨
      e ∈ probeEvents "timetable" w.timetable ∨
      e ∈ methodEvents "own_absences" w.own_absences ∨
      e ∈ methodEvents "absences" w.absences ∨
      e ∈ methodEvents "exams" w.exams ∨
      e ∈ methodEvents "own_exams" w.own_exams) : e ∈ sessionBody2 w := by
  simp only [sessionBody2, List.mem_append]
  tauto

/-- Every probe of `examine_timetable.py` leaves a report line in a
logged-in run, a failure report when it failed. -/
theorem run_reports (w : World) (hl : w.login = .ok ()) :
    ∀ p ∈ probeNames1, ∃ e ∈ run w, eventProbe e = some p ∧
      (exceptFails ((w.resultOf p).getD (.ok [])) = true → isErrorReport e = true) := by
  intro p hp
  simp only [probeNames1, List.mem_cons, List.not_mem_nil, or_false] at hp
  rcases hp with rfl | rfl | rfl
  · obtain ⟨e, hmem, h1, h2⟩ := myTimetableEvents_report w.myTimetable
    exact ⟨e, mem_run_of_body hl (mem_sessionBody_my hmem), h1,
      by simpa [World.resultOf] using h2⟩
  · obtain ⟨e, hmem, h1, h2⟩ := timetableExtendedEvents_report w.timetableExtended
    exact ⟨e, mem_run_of_body hl (mem_sessionBody_ext hmem), h1,
      by simpa [World.resultOf] using h2⟩
  · obtain ⟨e, hmem, h1, h2⟩ := substitutionsEvents_report w.substitutions
    exact ⟨e, mem_run_of_body hl (mem_sessionBody_subs hmem), h1,
      by simpa [World.resultOf] using h2⟩

/-- Every probe of `test_python_webuntis.py` leaves a report line in a
logged-in run, a failure report when it failed. -/
theorem run2_reports (w : World2) (hl : w.login = .ok ()) :
    ∀ p ∈ probeNames2, ∃ e ∈ run2 w, eventProbe e = some p ∧
      (mrFails ((w.resultOf p).getD (.ok [])) = true → isErrorReport e = true) := by
  intro p hp
  simp only [probeNames2, List.mem_cons, List.not_mem_nil, or_false] at hp
  rcases hp with rfl | rfl | rfl | rfl | rfl | rfl | rfl | rfl | rfl
  · obtain ⟨e, hmem, h1, h2⟩ := probeEvents_report "klassen" w.klassen
    refine ⟨e, mem_run2_of_body hl (mem_sessionBody2_of w e (by tauto)), h1, ?_⟩
    simp only [World2.resultOf, if_pos, Option.getD_some]
    intro hf
    exact h2 (by cases hres : w.klassen <;> simp [exceptToMR, hres, exceptFails, mrFails] at hf ⊢)
  · obtain ⟨e, hmem, h1, h2⟩ := probeEvents_report "subjects" w.subjects
    refine ⟨e, mem_run2_of_body hl (mem_sessionBody2_of w e (by tauto)), h1, ?_⟩
    simp only [World2.resultOf]
    intro hf
    simp at hf
    exact h2 (by cases hres : w.subjects <;> simp [exceptToMR, hres, exceptFails, mrFails] at hf ⊢)
  · obtain ⟨e, hmem, h1, h2⟩ := probeEvents_report "teachers" w.teachers
    refine ⟨e, mem_run2_of_body hl (mem_sessionBody2_of w e (by tauto)), h1, ?_⟩
    simp only [World2.resultOf]
    intro hf
    simp at hf
    exact h2 (by cases hres : w.teachers <;> simp [exceptToMR, hres, exceptFails, mrFails] at hf ⊢)
  · obtain ⟨e, hmem, h1, h2⟩ := probeEvents_report "rooms" w.rooms
    refine ⟨e, mem_run2_of_body hl (mem_sessionBody2_of w e (by tauto)), h1, ?_⟩
    simp only [World2.resultOf]
    intro hf
    simp at hf
    exact h2 (by cases hres : w.rooms <;> simp [exceptToMR, hres, exceptFails, mrFails] at hf ⊢)
  · obtain ⟨e, hmem, h1, h2⟩ := probeEvents_report "timetable" w.timetable
    refine ⟨e, mem_run2_of_body hl (mem_sessionBody2_of w e (by tauto)), h1, ?_⟩
    simp only [World2.resultOf]
    intro hf
    simp at hf
    exact h2 (by cases hres : w.timetable <;> simp [exceptToMR, hres, exceptFails, mrFails] at hf ⊢)
  · obtain ⟨e, hmem, h1, h2⟩ := methodEvents_report "own_absences" w.own_absences
    refine ⟨e, mem_run2_of_body hl (mem_sessionBody2_of w e (by tauto)), h1, ?_⟩
    intro hf
    simp [World2.resultOf] at hf
    exact h2 hf
  · obtain ⟨e, hmem, h1, h2⟩ := methodEvents_report "absences" w.absences
    refine ⟨e, mem_run2_of_body hl (mem_sessionBody2_of w e (by tauto)), h1, ?_⟩
    intro hf
    simp [World2.resultOf] at hf
    exact h2 hf
  · obtain ⟨e, hmem, h1, h2⟩ := methodEvents_report "exams" w.exams
    refine ⟨e, mem_run2_of_body hl (mem_sessionBody2_of w e (by tauto)), h1, ?_⟩
    intro hf
    simp [World2.resultOf] at hf
    exact h2 hf
  · obtain ⟨e, hmem, h1, h2⟩ := methodEvents_report "own_exams" w.own_exams
    refine ⟨e, mem_run2_of_body hl (mem_sessionBody2_of w e (by tauto)), h1, ?_⟩
    intro hf
    simp [World2.resultOf] at hf
    exact h2 hf

/-- C3: in both runners, a probe that fails produces a failure report
line naming it, and every probe of the fixed ordered list still produces
its own report line whatever any other probe did: no probe failure aborts
the run. -/
theorem C3_probe_failure_isolated (w : World) (w2 : World2)
    (hl : w.login = .ok ()) (hl2 : w2.login = .ok ()) :
    (∀ p ∈ probeNames1, ∀ res, w.resultOf p = some res → exceptFails res = true →
      ∃ e ∈ run w, eventProbe e = some p ∧ isErrorReport e = true) ∧
    (∀ q ∈ probeNames1, ∃ e ∈ run w, eventProbe e = some q) ∧
    (∀ p ∈ probeNames2, ∀ res, w2.resultOf p = some res → mrFails res = true →
      ∃ e ∈ run2 w2, eventProbe e = some p ∧ isErrorReport e = true) ∧
    (∀ q ∈ probeNames2, ∃ e ∈ run2 w2, eventProbe e = some q) := by
  refine ⟨?_, ?_, ?_, ?_⟩
  · intro p hp res hres hfail
    obtain ⟨e, hmem, h1, h2⟩ := run_reports w hl p hp
    rw [hres] at h2
    exact ⟨e, hmem, h1, h2 hfail⟩
  · intro q hq
    obtain ⟨e, hmem, h1, _⟩ := run_reports w hl q hq
    exact ⟨e, hmem, h1⟩
  · intro p hp res hres hfail
    obtain ⟨e, hmem, h1, h2⟩ := run2_reports w2 hl2 p hp
    rw [hres] at h2
    exact ⟨e, hmem, h1, h2 hfail⟩
  · intro q hq
    obtain ⟨e, hmem, h1, _⟩ := run2_reports w2 hl2 q hq
    exact ⟨e, hmem, h1⟩

theorem C3_probe_failure_isolated_witness :
    ((⟨.ok (), .error "bad date range", .ok [], .ok []⟩ : World).login = .ok ()) ∧
    (∃ e ∈ run (⟨.ok (), .error "bad date range", .ok [], .ok []⟩ : World),
      eventProbe e = some "my_timetable" ∧ isErrorReport e = true) ∧
    (∃ e ∈ run (⟨.ok (), .error "bad date range", .ok [], .ok []⟩ : World),
      eventProbe e = some "substitutions") := by
  have h := C3_probe_failure_isolated
    ⟨.ok (), .error "bad date range", .ok [], .ok []⟩
    ⟨.ok (), .ok [], .error "boom", .ok [], .ok [], .ok [],
      .notAvailable, .notAvailable, .ok [], .ok [], []⟩ rfl rfl
  exact ⟨rfl, h.1 "my_timetable" (by decide) (.error "bad date range") (by decide) rfl,
    h.2.1 "substitutions" (by decide)⟩

theorem exceptToMR_ok {r : Except String (List Record)} {l : List Record}
    (h : exceptToMR r = .ok l) : r = .ok l := by
  cases r with
  | error m => simp [exceptToMR] at h
  | ok l' =>
    simp [exceptToMR] at h
    rw [h]

/-- C6: every successful probe report of both runners carries the exact
count of returned records, and every field-dump line of a run concerns
one of the first three returned periods only. -/
theorem C6_counts_and_dump_bound (w : World) (w2 : World2)
    (hl : w.login = .ok ()) (hl2 : w2.login = .ok ()) :
    (∀ p ∈ probeNames1, ∀ l, w.resultOf p = some (.ok l) →
      Event.probeCount p l.length ∈ run w) ∧
    (∀ p ∈ probeNames2, ∀ l, w2.resultOf p = some (.ok l) →
      Event.probeCount p l.length ∈ run2 w2) ∧
    (∀ tt, w.myTimetable = .ok tt →
      ∀ e ∈ run w, ∀ i, fieldIdx e = some i → i < 3 ∧ i < tt.length) := by
  refine ⟨?_, ?_, ?_⟩
  · intro p hp l hres
    simp only [probeNames1, List.mem_cons, List.not_mem_nil, or_false] at hp
    rcases hp with rfl | rfl | rfl
    · simp only [World.resultOf, if_pos, Option.some.injEq] at hres
      have hm : Event.probeCount "my_timetable" l.length ∈ myTimetableEvents w.myTimetable := by
        rw [hres]
        simp [myTimetableEvents]
      exact mem_run_of_body hl (mem_sessionBody_my hm)
    · simp [World.resultOf] at hres
      have hm : Event.probeCount "timetable_extended" l.length
          ∈ timetableExtendedEvents w.timetableExtended := by
        rw [hres]
        simp [timetableExtendedEvents]
      exact mem_run_of_body hl (mem_sessionBody_ext hm)
    · simp [World.resultOf] at hres
      have hm : Event.probeCount "substitutions" l.length
          ∈ substitutionsEvents w.substitutions := by
        rw [hres]
        simp [substitutionsEvents]
      exact mem_run_of_body hl (mem_sessionBody_subs hm)
  · intro p hp l hres
    simp only [probeNames2, List.mem_cons, List.not_mem_nil, or_false] at hp
    rcases hp with rfl | rfl | rfl | rfl | rfl | rfl | rfl | rfl | rfl
    · simp only [World2.resultOf, if_pos, Option.some.injEq] at hres
      have hk := exceptToMR_ok hres
      have hm : Event.probeCount "klassen" l.length ∈ probeEvents "klassen" w2.klassen := by
        rw [hk]
        simp [probeEvents]
      exact mem_run2_of_body hl2 (mem_sessionBody2_of w2 _ (by tauto))
    · simp [World2.resultOf] at hres
      have hk := exceptToMR_ok hres
      have hm : Event.probeCount "subjects" l.length ∈ probeEvents "subjects" w2.subjects := by
        rw [hk]
        simp [probeEvents]
      exact mem_run2_of_body hl2 (mem_sessionBody2_of w2 _ (by tauto))
    · simp [World2.resultOf] at hres
      have hk := exceptToMR_ok hres
      have hm : Event.probeCount "teachers" l.length ∈ probeEvents "teachers" w2.teachers := by
        rw [hk]
        simp [probeEvents]
      exact mem_run2_of_body hl2 (mem_sessionBody2_of w2 _ (by tauto))
    · simp [World2.resultOf] at hres
      have hk := exceptToMR_ok hres
      have hm : Event.probeCount "rooms" l.length ∈ probeEvents "rooms" w2.rooms := by
        rw [hk]
        simp [probeEvents]
      exact mem_run2_of_body hl2 (mem_sessionBody2_of w2 _ (by tauto))
    · simp [World2.resultOf] at hres
      have hk := exceptToMR_ok hres
      have hm : Event.probeCount "timetable" l.length ∈ probeEvents "timetable" w2.timetable := by
        rw [hk]
        simp [probeEvents]
      exact mem_run2_of_body hl2 (mem_sessionBody2_of w2 _ (by tauto))
    · simp [World2.resultOf] at hres
      have hm : Event.probeCount "own_absences" l.length
          ∈ methodEvents "own_absences" w2.own_absences := by
        rw [hres]
        cases l <;> simp [methodEvents]
      exact mem_run2_of_body hl2 (mem_sessionBody2_of w2 _ (by tauto))
    · simp [World2.resultOf] at hres
      have hm : Event.probeCount "absences" l.length
          ∈ methodEvents "absences" w2.absences := by
        rw [hres]
        cases l <;> simp [methodEvents]
      exact mem_run2_of_body hl2 (mem_sessionBody2_of w2 _ (by tauto))
    · simp [World2.resultOf] at hres
      have hm : Event.probeCount "exams" l.length ∈ methodEvents "exams" w2.exams := by
        rw [hres]
        cases l <;> simp [methodEvents]
      exact mem_run2_of_body hl2 (mem_sessionBody2_of w2 _ (by tauto))
    · simp [World2.resultOf] at hres
      have hm : Event.probeCount "own_exams" l.length
          ∈ methodEvents "own_exams" w2.own_exams := by
        rw [hres]
        cases l <;> simp [methodEvents]
      exact mem_run2_of_body hl2 (mem_sessionBody2_of w2 _ (by tauto))
  · intro tt htt e he i hi
    have hr : run w = .loggedIn :: sessionBody w ++ [.sessionReleased] := by
      unfold run
      rw [hl]
    rw [hr] at he
    rcases List.mem_cons.mp he with rfl | he
    · simp [fieldIdx] at hi
    rcases List.mem_append.mp he with he | he
    · rcases List.mem_append.mp he with he | he
      · rcases List.mem_append.mp he with he | he
        · rw [htt] at he
          rcases mem_myTimetableEvents_ok he with rfl | ⟨j, hj, h3, hlen⟩ | ⟨j, a, v, rfl⟩ | ⟨s, c, rfl⟩
          · simp [fieldIdx] at hi
          · rw [hj] at hi
            injection hi with hji
            subst hji
            exact ⟨h3, hlen⟩
          · simp [fieldIdx] at hi
          · simp [fieldIdx] at hi
        · rcases mem_timetableExtendedEvents he with ⟨m, rfl⟩ | ⟨n, rfl⟩ <;>
            simp [fieldIdx] at hi
      · rcases mem_substitutionsEvents he with ⟨m, rfl⟩ | ⟨n, rfl⟩ | ⟨r, rfl⟩ <;>
          simp [fieldIdx] at hi
    · rcases List.mem_singleton.mp he with rfl
      simp [fieldIdx] at hi

theorem C6_counts_and_dump_bound_witness :
    Event.probeCount "my_timetable" 3 ∈
      run ⟨.ok (), .ok [⟨[("id", .ok "1")]⟩, ⟨[]⟩, ⟨[]⟩], .ok [], .ok []⟩ ∧
    Event.probeCount "own_absences" 0 ∈
      run2 ⟨.ok (), .ok [], .ok [], .ok [], .ok [], .ok [],
        .ok [], .notAvailable, .ok [], .ok [], []⟩ ∧
    (0 < 3 ∧ 0 < 3) := by
  have h := C6_counts_and_dump_bound
    ⟨.ok (), .ok [⟨[("id", .ok "1")]⟩, ⟨[]⟩, ⟨[]⟩], .ok [], .ok []⟩
    ⟨.ok (), .ok [], .ok [], .ok [], .ok [], .ok [],
      .ok [], .notAvailable, .ok [], .ok [], []⟩ rfl rfl
  refine ⟨h.1 "my_timetable" (by decide) [⟨[("id", .ok "1")]⟩, ⟨[]⟩, ⟨[]⟩] (by decide),
    h.2.1 "own_absences" (by decide) [] (by decide), ?_⟩
  exact h.2.2 [⟨[("id", .ok "1")]⟩, ⟨[]⟩, ⟨[]⟩] (by decide)
    (Event.fieldDump 0 "id" "1") (by decide) 0 rfl

/-- C4 (amended): in the dir-based dump of `examine_timetable.py`, a
field whose access raises is reported as inaccessible and every other
listed field is still dumped, so a failing field never aborts the dump;
in the fixed-attribute dump of `final_webuntis_test.py`, a field that is
missing or whose access raises is silently skipped — no line at all is
printed for it — and the dump continues. -/
theorem C4_dump_error_handling (r : Record) (i : Nat) (attr : String) :
    (attr ∈ dirAttrs r → pyStartsWith attr "_" = false → getattr r attr = some .raises →
      Event.fieldInaccessible i attr ∈ dumpPeriod i r) ∧
    (∀ a ∈ dirAttrs r, pyStartsWith a "_" = false →
      ∃ e ∈ dumpPeriod i r, fieldAttr e = some a) ∧
    (hasattrB r attr = false → ∀ e ∈ dumpFixedAttrs r, fieldAttr e ≠ some attr) := by
  refine ⟨?_, ?_, ?_⟩
  · intro hmem hus hget
    exact List.mem_filterMap.mpr ⟨attr, hmem, by simp [dumpAttrEvent, hus, hget]⟩
  · intro a ha hus
    have hsome : ∃ fa, getattr r a = some fa := by
      rcases List.mem_map.mp ha with ⟨p, hp, rfl⟩
      have hfind : (r.fields.find? (fun f => f.1 == p.1)).isSome :=
        List.find?_isSome.mpr ⟨p, hp, by simp⟩
      rcases Option.isSome_iff_exists.mp hfind with ⟨q, hq⟩
      exact ⟨q.2, by unfold getattr; rw [hq]; rfl⟩
    rcases hsome with ⟨fa, hget⟩
    cases fa with
    | ok v =>
      exact ⟨.fieldDump i a v,
        List.mem_filterMap.mpr ⟨a, ha, by simp [dumpAttrEvent, hus, hget]⟩, rfl⟩
    | raises =>
      exact ⟨.fieldInaccessible i a,
        List.mem_filterMap.mpr ⟨a, ha, by simp [dumpAttrEvent, hus, hget]⟩, rfl⟩
  · intro hno e he
    rcases List.mem_filterMap.mp he with ⟨a, _, ha⟩
    by_cases hq : a = attr
    · subst hq
      simp [hno] at ha
    · split at ha
      · split at ha
        · cases ha
          simp [fieldAttr, hq]
        · exact Option.noConfusion ha
      · exact Option.noConfusion ha

theorem C4_dump_error_handling_witness :
    Event.fieldInaccessible 0 "secret" ∈
      dumpPeriod 0 ⟨[("id", .ok "5"), ("secret", .raises)]⟩ ∧
    hasattrB (⟨[("id", .ok "5"), ("secret", .raises)]⟩ : Record) "statflags" = false ∧
    fieldAttr (Event.fieldDump 0 "id" "5") ≠ some "statflags" := by
  have h := C4_dump_error_handling ⟨[("id", .ok "5"), ("secret", .raises)]⟩ 0 "secret"
  have h' := C4_dump_error_handling ⟨[("id", .ok "5"), ("secret", .raises)]⟩ 0 "statflags"
  exact ⟨h.1 (by decide) (by decide) (by decide), by decide,
    h'.2.2 (by decide) (Event.fieldDump 0 "id" "5") (by decide)⟩

/-- C4 (counterexample): the fixed-attribute dump of
`final_webuntis_test.py` prints nothing at all for a record missing the
expected field, rather than reporting the field as inaccessible. -/
theorem C4_missing_field_not_reported :
    "id" ∈ fixedAttrs ∧
    getattr (⟨[]⟩ : Record) "id" = none ∧
    dumpFixedAttrs ⟨[]⟩ = [] :=
  ⟨by decide, by decide, by decide⟩

theorem C10_line_parsing_witness :
    applyLine [("X", "y")] "no equals sign here" = [("X", "y")] ∧
    applyLine [("X", "y")] ("KEY " ++ "=" ++ " a=b=c") =
      setdefault [("X", "y")] (pyStrip "KEY ") (pyStrip " a=b=c") ∧
    setdefault [("X", "y")] (pyStrip "KEY ") (pyStrip " a=b=c") =
      [("X", "y"), ("KEY", "a=b=c")] :=
  ⟨(C10_line_parsing [("X", "y")]).1 "no equals sign here" (by decide) (by decide) (by decide),
   (C10_line_parsing [("X", "y")]).2 "KEY " " a=b=c" (by decide) (by decide) (by decide),
   by decide⟩

end Untis
